import Mathlib

/-!
Verification development for the SeizureDetection data-preparation pipeline
(notebook Data_Preparation.ipynb). The pandas data frames are embedded as
Lean lists of rows; times and signal values are rationals; the seeded
pandas sampler is abstracted as a function subject to the contract of
DataFrame.sample (a without-replacement draw of exactly n rows, failing
when fewer than n rows exist).
-/

/-- One row of the reshaped (one-row-per-epoch) table: the epoch index, the
collected per-sample channel values of the epoch, and the binary seizure
label column. -/
structure EpochRow where
  epoch : Nat
  data : List (List ℚ)
  seizure : Nat
deriving DecidableEq, Repr

/-- Number of rows of the table whose seizure label equals v. -/
def countLabel (v : Nat) (df : List EpochRow) : Nat :=
  (df.filter (fun r => r.seizure == v)).length

/-- Contract of pandas DataFrame.sample(n=n, random_state=42): when the frame
has at least n rows it returns some n-row selection of them (a sublist, up to
the ordering imposed by reset_index), and when the frame has fewer than n rows
it raises ValueError, modelled as none. -/
def PandasSampleSpec (sample : List EpochRow → Nat → Option (List EpochRow)) : Prop :=
  ∀ xs n,
    (n ≤ xs.length → ∃ ys, sample xs n = some ys ∧ ys.Sublist xs ∧ ys.length = n) ∧
    (xs.length < n → sample xs n = none)

/-- A concrete sampler satisfying the contract, used by the witnesses. -/
def takeSample (xs : List EpochRow) (n : Nat) : Option (List EpochRow) :=
  if n ≤ xs.length then some (xs.take n) else none

theorem takeSample_spec : PandasSampleSpec takeSample := by
  intro xs n
  constructor
  · intro h
    refine ⟨xs.take n, ?_, List.take_sublist n xs, List.length_take_of_le h⟩
    simp [takeSample, h]
  · intro h
    simp [takeSample, Nat.not_le.mpr h]

/-- Embedding of epochs_seizure_based: split the per-recording epoch table on
the seizure column, let N be the number of seizure rows, draw N rows from the
non-seizure subset with the seeded sampler, and concatenate seizure rows first
followed by the sampled non-seizure rows. -/
def epochs_seizure_based (sample : List EpochRow → Nat → Option (List EpochRow))
    (df : List EpochRow) : Option (List EpochRow) :=
  let df_sz := df.filter (fun r => r.seizure == 1)
  let N := df_sz.length
  match sample (df.filter (fun r => r.seizure == 0)) N with
  | none => none
  | some df_no_sz => some (df_sz ++ df_no_sz)

/-- Claim C1: for every epoch table with N greater than 0 seizure rows and at
least N non-seizure rows, the balancer returns a table made of exactly the N
seizure rows first, followed by N sampled rows that all carry label 0, so the
output has exactly N rows of each label. -/
theorem C1_balancer_exact (sample : List EpochRow → Nat → Option (List EpochRow))
    (hs : PandasSampleSpec sample) (df : List EpochRow)
    (hpos : 0 < countLabel 1 df) (hge : countLabel 1 df ≤ countLabel 0 df) :
    ∃ sampled,
      epochs_seizure_based sample df =
        some (df.filter (fun r => r.seizure == 1) ++ sampled) ∧
      sampled.length = countLabel 1 df ∧
      (∀ r ∈ sampled, r.seizure = 0) ∧
      countLabel 1 (df.filter (fun r => r.seizure == 1) ++ sampled) = countLabel 1 df ∧
      countLabel 0 (df.filter (fun r => r.seizure == 1) ++ sampled) = countLabel 1 df := by
  obtain ⟨ys, hys, hsub, hlen⟩ :=
    (hs (df.filter (fun r => r.seizure == 0)) (countLabel 1 df)).1 hge
  have hy0 : ∀ r ∈ ys, r.seizure = 0 := by
    intro r hr
    have hr2 := hsub.subset hr
    have := (List.mem_filter.mp hr2).2
    simpa using this
  have h1 : ∀ r ∈ df.filter (fun r => r.seizure == 1), r.seizure = 1 := by
    intro r hr
    have := (List.mem_filter.mp hr).2
    simpa using this
  refine ⟨ys, ?_, hlen, hy0, ?_, ?_⟩
  · unfold epochs_seizure_based
    have : sample (df.filter (fun r => r.seizure == 0))
        (df.filter (fun r => r.seizure == 1)).length = some ys := hys
    simp only [this]
  · unfold countLabel
    rw [List.filter_append]
    have ha : (df.filter (fun r => r.seizure == 1)).filter (fun r => r.seizure == 1) =
        df.filter (fun r => r.seizure == 1) := by
      rw [List.filter_eq_self]
      intro a ha
      simpa using h1 a ha
    have hb : ys.filter (fun r => r.seizure == 1) = [] := by
      rw [List.filter_eq_nil_iff]
      intro a ha
      simp [hy0 a ha]
    rw [ha, hb]
    simp [countLabel]
  · unfold countLabel
    rw [List.filter_append]
    have ha : (df.filter (fun r => r.seizure == 1)).filter (fun r => r.seizure == 0) = [] := by
      rw [List.filter_eq_nil_iff]
      intro a ha
      simp [h1 a ha]
    have hb : ys.filter (fun r => r.seizure == 0) = ys := by
      rw [List.filter_eq_self]
      intro a ha
      simp [hy0 a ha]
    rw [ha, hb]
    simp only [List.nil_append]
    exact hlen

/-- Witness for C1 at a concrete two-row table with one seizure epoch. -/
theorem C1_balancer_exact_witness :
    ∃ sampled,
      epochs_seizure_based takeSample
          [⟨0, [], 1⟩, ⟨1, [], 0⟩] =
        some (([⟨0, [], 1⟩, ⟨1, [], 0⟩] : List EpochRow).filter
            (fun r => r.seizure == 1) ++ sampled) ∧
      sampled.length = countLabel 1 [⟨0, [], 1⟩, ⟨1, [], 0⟩] ∧
      (∀ r ∈ sampled, r.seizure = 0) ∧
      countLabel 1 (([⟨0, [], 1⟩, ⟨1, [], 0⟩] : List EpochRow).filter
          (fun r => r.seizure == 1) ++ sampled) = countLabel 1 [⟨0, [], 1⟩, ⟨1, [], 0⟩] ∧
      countLabel 0 (([⟨0, [], 1⟩, ⟨1, [], 0⟩] : List EpochRow).filter
          (fun r => r.seizure == 1) ++ sampled) = countLabel 1 [⟨0, [], 1⟩, ⟨1, [], 0⟩] :=
  C1_balancer_exact takeSample takeSample_spec
    [⟨0, [], 1⟩, ⟨1, [], 0⟩] (by decide) (by decide)

/-- One row of the tidy per-sample table entering reshape_df: epoch index,
channel values of the sample, and the per-sample binary seizure label. -/
structure SampleRow where
  epoch : Nat
  vals : List ℚ
  seizure : Nat
deriving DecidableEq, Repr

/-- Multiplicity of the value v in the series xs. -/
def countOcc (xs : List Nat) (v : Nat) : Nat :=
  List.count v xs

/-- Embedding of pandas Series.mode(): the values of maximal multiplicity,
listed in ascending order (pandas sorts the modes before returning them).
Enumerating List.range in ascending order realises the sort. -/
def modeCandidates (xs : List Nat) : List Nat :=
  (List.range (xs.foldr max 0 + 1)).filter
    (fun v => decide (v ∈ xs) && xs.all (fun w => decide (countOcc xs w ≤ countOcc xs v)))

/-- Embedding of Series.mode().iat[0] as used by reshape_df: the smallest
value of maximal multiplicity. -/
def modeHead (xs : List Nat) : Nat :=
  (modeCandidates xs).headD 0

/-- Modelled from the claim text only: the first-occurring mode, that is the
first value in sample order whose multiplicity is maximal. Compared against
the source-derived modeHead. -/
def firstOccurringMode (xs : List Nat) : Nat :=
  (xs.filter (fun v => xs.all (fun w => decide (countOcc xs w ≤ countOcc xs v)))).headD 0

/-- The group of tidy rows belonging to epoch e, in original order (pandas
groupby preserves the order of rows inside each group). -/
def groupRows (df : List SampleRow) (e : Nat) : List SampleRow :=
  df.filter (fun r => r.epoch == e)

/-- The distinct epoch indices of the table in ascending order (pandas
groupby sorts the group keys). -/
def epochKeys (df : List SampleRow) : List Nat :=
  (List.range ((df.map (fun r => r.epoch)).foldr max 0 + 1)).filter
    (fun e => df.any (fun r => r.epoch == e))

/-- The channel-aggregation lambda of reshape_df, lambda x: np.array(
x.tolist(), dtype=np.float32): numpy is bound to the name numpy, not np, so
the first invocation raises NameError. The lambda is invoked once per epoch
group, hence on every nonempty table. -/
def np_array_call : Except String Unit :=
  Except.error "NameError: name np is not defined"

/-- Embedding of reshape_df: on a nonempty table the groupby-apply of the
channel-aggregation loop invokes the lambda, which raises NameError before
the mode line ever runs; reshape_df has no handler, so the error propagates.
On an empty table there is no group, no lambda runs, and the empty reshaped
frame results. The grouping and mode labeling in the ok branch model the
source text after the raise, which is unreachable for nonempty input. -/
def reshape_df (df : List SampleRow) : Except String (List EpochRow) :=
  if df.isEmpty then Except.ok []
  else
    match np_array_call with
    | .error e => .error e
    | .ok _ =>
      Except.ok ((epochKeys df).map (fun e =>
        { epoch := e
          data := (groupRows df e).map (fun r => r.vals)
          seizure := modeHead ((groupRows df e).map (fun r => r.seizure)) }))

theorem le_foldr_max {xs : List Nat} {x : Nat} (h : x ∈ xs) : x ≤ xs.foldr max 0 := by
  induction xs with
  | nil => cases h
  | cons a t ih =>
    simp only [List.foldr_cons]
    rcases List.mem_cons.mp h with h1 | h1
    · subst h1; exact le_max_left _ _
    · exact le_trans (ih h1) (le_max_right _ _)

theorem foldr_max_le {xs : List Nat} {b : Nat} (h : ∀ x ∈ xs, x ≤ b) : xs.foldr max 0 ≤ b := by
  induction xs with
  | nil => simpa using Nat.zero_le b
  | cons a t ih =>
    simp only [List.foldr_cons]
    exact max_le (h a (List.mem_cons_self a t)) (ih fun x hx => h x (List.mem_cons_of_mem a hx))

/-- On a binary series, mode().iat[0] is 1 exactly when the ones strictly
outnumber the zeros; an exact tie yields 0, because pandas returns the modes
sorted ascending and iat[0] takes the smallest. -/
theorem modeHead_binary (xs : List Nat) (hbin : ∀ x ∈ xs, x = 0 ∨ x = 1) :
    modeHead xs = if countOcc xs 0 < countOcc xs 1 then 1 else 0 := by
  by_cases hc : countOcc xs 0 < countOcc xs 1
  · rw [if_pos hc]
    have h1mem : (1 : Nat) ∈ xs :=
      List.count_pos_iff.mp (Nat.lt_of_le_of_lt (Nat.zero_le _) hc)
    have hmax : xs.foldr max 0 = 1 := by
      apply Nat.le_antisymm
      · exact foldr_max_le fun x hx => by rcases hbin x hx with h | h <;> simp [h]
      · exact le_foldr_max h1mem
    have hall_false : xs.all (fun w => decide (countOcc xs w ≤ countOcc xs 0)) = false := by
      apply Bool.eq_false_of_ne_true
      intro hall
      have h1 := List.all_eq_true.mp hall 1 h1mem
      exact absurd hc (Nat.not_lt.mpr (of_decide_eq_true h1))
    have hp1 : (decide ((1 : Nat) ∈ xs) &&
        xs.all (fun w => decide (countOcc xs w ≤ countOcc xs 1))) = true := by
      rw [Bool.and_eq_true]
      refine ⟨decide_eq_true h1mem, List.all_eq_true.mpr ?_⟩
      intro w hw
      rcases hbin w hw with h | h <;> subst h
      · exact decide_eq_true (Nat.le_of_lt hc)
      · exact decide_eq_true (Nat.le_refl _)
    unfold modeHead modeCandidates
    rw [hmax]
    have hr : List.range (1 + 1) = [0, 1] := by decide
    rw [hr]
    simp only [List.filter_cons, List.filter_nil, hall_false, Bool.and_false, hp1]
    simp
  · rw [if_neg hc]
    have hc' : countOcc xs 1 ≤ countOcc xs 0 := Nat.not_lt.mp hc
    by_cases h0 : (0 : Nat) ∈ xs
    · have hp0 : (decide ((0 : Nat) ∈ xs) &&
          xs.all (fun w => decide (countOcc xs w ≤ countOcc xs 0))) = true := by
        rw [Bool.and_eq_true]
        refine ⟨decide_eq_true h0, List.all_eq_true.mpr ?_⟩
        intro w hw
        rcases hbin w hw with h | h <;> subst h
        · exact decide_eq_true (Nat.le_refl _)
        · exact decide_eq_true hc'
      unfold modeHead modeCandidates
      rw [List.range_succ_eq_map]
      simp only [List.filter_cons, hp0]
      simp
    · rcases Decidable.em (xs = []) with hnil | hnil
      · subst hnil; decide
      · obtain ⟨x, hx⟩ := List.exists_mem_of_ne_nil xs hnil
        have hx1 : x = 1 := by
          rcases hbin x hx with h | h
          · exact absurd (h ▸ hx) h0
          · exact h
        rw [hx1] at hx
        have hpos : 0 < countOcc xs 1 := List.count_pos_iff.mpr hx
        have hzero : countOcc xs 0 = 0 := List.count_eq_zero.mpr h0
        omega

/-- Claim C2 refuted: reshape_df never assigns any epoch label. On every
nonempty tidy table the channel-aggregation lambda raises NameError, from the
unbound name np, before the mode line runs, so the function raises instead of
producing labeled epochs. The mode line itself, were it ever reached, would
pick the smallest mode, because pandas returns the modes sorted ascending:
on the tied samples [1, 0] it would yield 0, not the first-occurring mode 1
that the claim describes. -/
theorem C2_reshape_raises (df : List SampleRow) (hne : df ≠ []) :
    reshape_df df = Except.error "NameError: name np is not defined" ∧
    modeHead [1, 0] = 0 ∧ firstOccurringMode [1, 0] = 1 := by
  refine ⟨?_, by decide, by decide⟩
  cases df with
  | nil => exact absurd rfl hne
  | cons a t => rfl

/-- Witness for C2 at a one-epoch table whose per-sample labels are 1, 0. -/
theorem C2_reshape_raises_witness :
    reshape_df [⟨0, [], 1⟩, ⟨0, [], 0⟩] =
      Except.error "NameError: name np is not defined" ∧
    modeHead [1, 0] = 0 ∧ firstOccurringMode [1, 0] = 1 :=
  C2_reshape_raises [⟨0, [], 1⟩, ⟨0, [], 0⟩] (by decide)

/-- Embedding of df_conversion as invoked by the driver loop: the global
output_path is the un-unpacked pair returned by define_paths (the driver
assigns output_path = define_paths(...) without destructuring), so
os.path.join(output_folder, output_filename) raises TypeError before any
file is written. -/
def df_conversion_write (df : List EpochRow) : Except String Unit :=
  Except.error "TypeError: join argument must be str, not tuple"

/-- The tail of the per-recording driver body: reshape the labeled tidy
table, balance it, and export it; the first raised exception propagates to
the except of the driver loop and no output file is written. -/
def driverEmits (sample : List EpochRow → Nat → Option (List EpochRow))
    (tidy : List SampleRow) : Except String Unit :=
  match reshape_df tidy with
  | .error e => .error e
  | .ok reshaped =>
    match epochs_seizure_based sample reshaped with
    | none => .error "ValueError: cannot take a larger sample than population"
    | some out => df_conversion_write out

/-- Claim C3: no output file is ever written for any recording, so in
particular none is written for a recording whose reshaped table would hold
zero seizure rows. For nonempty tidy tables reshape_df raises NameError
before the balancer is reached; for the empty table the export itself raises
TypeError on the tuple-valued output path. -/
theorem C3_no_output_file (sample : List EpochRow → Nat → Option (List EpochRow))
    (tidy : List SampleRow) :
    driverEmits sample tidy ≠ Except.ok () := by
  unfold driverEmits
  cases hre : reshape_df tidy with
  | error e => simp
  | ok reshaped =>
    cases hb : epochs_seizure_based sample reshaped with
    | none => simp [hb]
    | some out => simp [hb, df_conversion_write]

/-- Compilation of the large-file cell: its statement
df.drop(columns=[..., inplace=True]) puts a keyword argument inside a list
literal, a SyntaxError, so the cell never byte-compiles and none of its
statements run. -/
def largeFileCellSyntax : Except String Unit :=
  Except.error "SyntaxError: invalid syntax in the df.drop statement"

/-- The first statement of the loop body, loading(data_path, file,
loadig=False): loading accepts no keyword loadig, so even if the cell
compiled this call would raise TypeError in every iteration. -/
def loadigCall : Except String Unit :=
  Except.error "TypeError: unexpected keyword argument loadig"

/-- The Splitter path for one oversized recording, statement by statement:
the cell must compile, the loop body must load the recording, and then the
written dataflow would epoch the sampled interictal crops, force their label
to 0, reshape, and downsample to the seizure count N. Every stage up to and
including the reshape raises, so the ok branches are dead code and no table
is ever produced. -/
def splitterEmits (sample : List EpochRow → Nat → Option (List EpochRow))
    (interictal : List SampleRow) (N : Nat) : Except String (List EpochRow) :=
  match largeFileCellSyntax with
  | .error e => .error e
  | .ok _ =>
    match loadigCall with
    | .error e => .error e
    | .ok _ =>
      match reshape_df (interictal.map (fun r => { r with seizure := 0 })) with
      | .error e => .error e
      | .ok reshaped =>
        match sample reshaped N with
        | none => .error "ValueError: cannot take a larger sample than population"
        | some out => .ok out

/-- Claim C4 refuted: the Splitter path emits no table at all, so no final
emitted table satisfying count(label=1) = count(label=0) exists; the cell is
rejected with SyntaxError before anything runs, and its written dataflow
would in any case contain no seizure-sourced epochs. -/
theorem C4_splitter_emits_nothing
    (sample : List EpochRow → Nat → Option (List EpochRow))
    (interictal : List SampleRow) (N : Nat) :
    splitterEmits sample interictal N =
      Except.error "SyntaxError: invalid syntax in the df.drop statement" ∧
    ∀ out, splitterEmits sample interictal N ≠ Except.ok out := by
  have h1 : splitterEmits sample interictal N =
      Except.error "SyntaxError: invalid syntax in the df.drop statement" := rfl
  exact ⟨h1, fun out h => Except.noConfusion (h1.symm.trans h)⟩

/-- A seizure interval row of df_sz_annotations: onset, duration, and the
computed end column, end = onset + duration. -/
structure SzInterval where
  onset : ℚ
  duration : ℚ
  endTime : ℚ
deriving DecidableEq, Repr

/-- One annotated event of a recording: onset, duration, and its free-text
description as a character list. -/
structure Annotation where
  onset : ℚ
  duration : ℚ
  description : List Char
deriving DecidableEq, Repr

/-- The seizure marker string AANVAL. -/
def AANVAL : List Char := ['A', 'A', 'N', 'V', 'A', 'L']

/-- Embedding of seizure_annotations: keep exactly the events whose
description equals the marker, in order, and compute end = onset + duration
for each. -/
def seizure_annotations (anns : List Annotation) : List SzInterval :=
  (anns.filter (fun a => a.description == AANVAL)).map
    (fun a => { onset := a.onset, duration := a.duration, endTime := a.onset + a.duration })

/-- Claim C6: the extractor keeps exactly the events whose description equals
the marker, preserving their order and their onset and duration values, every
produced interval satisfies end = onset + duration, and when no event matches
the result is the empty sequence. -/
theorem C6_extractor_exact (anns : List Annotation) :
    (∀ iv ∈ seizure_annotations anns, iv.endTime = iv.onset + iv.duration) ∧
    (seizure_annotations anns).map (fun iv => (iv.onset, iv.duration)) =
      (anns.filter (fun a => a.description == AANVAL)).map (fun a => (a.onset, a.duration)) ∧
    (seizure_annotations anns).length =
      (anns.filter (fun a => a.description == AANVAL)).length ∧
    ((∀ a ∈ anns, a.description ≠ AANVAL) → seizure_annotations anns = []) := by
  refine ⟨?_, ?_, ?_, ?_⟩
  · intro iv hiv
    obtain ⟨a, _, rfl⟩ := List.mem_map.mp hiv
    rfl
  · unfold seizure_annotations
    rw [List.map_map]
    rfl
  · unfold seizure_annotations
    rw [List.length_map]
  · intro hnone
    unfold seizure_annotations
    rw [List.filter_eq_nil_iff.mpr (fun a ha => by simp [hnone a ha])]
    rfl

/-- Witness for C6 at a two-event annotation set with one exact match. -/
theorem C6_extractor_exact_witness :
    (∀ iv ∈ seizure_annotations
        [⟨3, 2, AANVAL⟩, ⟨8, 1, ['x']⟩], iv.endTime = iv.onset + iv.duration) ∧
    (seizure_annotations [⟨3, 2, AANVAL⟩, ⟨8, 1, ['x']⟩]).map
        (fun iv => (iv.onset, iv.duration)) =
      (([⟨3, 2, AANVAL⟩, ⟨8, 1, ['x']⟩] : List Annotation).filter
        (fun a => a.description == AANVAL)).map (fun a => (a.onset, a.duration)) ∧
    (seizure_annotations [⟨3, 2, AANVAL⟩, ⟨8, 1, ['x']⟩]).length =
      (([⟨3, 2, AANVAL⟩, ⟨8, 1, ['x']⟩] : List Annotation).filter
        (fun a => a.description == AANVAL)).length ∧
    ((∀ a ∈ ([⟨3, 2, AANVAL⟩, ⟨8, 1, ['x']⟩] : List Annotation),
        a.description ≠ AANVAL) →
      seizure_annotations [⟨3, 2, AANVAL⟩, ⟨8, 1, ['x']⟩] = []) :=
  C6_extractor_exact [⟨3, 2, AANVAL⟩, ⟨8, 1, ['x']⟩]

/-- One row of the epoched per-sample table entering labeling: epoch index,
channel values, and the restored absolute time column count. -/
structure TidyRow where
  epoch : Nat
  vals : List ℚ
  count : ℚ
deriving DecidableEq, Repr

/-- Embedding of merge_asof(df_epochs, df_sz_annotations, left_on=count,
right_on=onset) for a single left row: the last interval of the (sorted)
annotation table whose onset is at most t, none when no onset is. -/
def asofMatch (ivs : List SzInterval) (t : ℚ) : Option SzInterval :=
  (ivs.filter (fun iv => decide (iv.onset ≤ t))).getLast?

/-- Embedding of the labeling mask: the label defaults to 0 and is set to 1
exactly on rows where onset LE count and count LE end hold for the merged
interval columns; rows with no asof match keep 0 (a NaN comparison is false). -/
def labelSample (ivs : List SzInterval) (t : ℚ) : Nat :=
  match asofMatch ivs t with
  | none => 0
  | some iv => if iv.onset ≤ t ∧ t ≤ iv.endTime then 1 else 0

/-- Embedding of labeling: every tidy row receives labelSample at its count
time; the helper columns count, onset and end are dropped afterwards, leaving
epoch, channel values and the binary label. -/
def labeling (rows : List TidyRow) (ivs : List SzInterval) : List SampleRow :=
  rows.map (fun r => { epoch := r.epoch, vals := r.vals, seizure := labelSample ivs r.count })

/-- Modelled from the claim text: label 1 exactly when the most recent
interval, the one of maximal onset among those with onset at most t, covers t
inclusively on both ends; label 0 otherwise. -/
def specLabel (ivs : List SzInterval) (t : ℚ) : Nat :=
  if ∃ iv ∈ ivs, (∀ jv ∈ ivs, jv.onset ≤ t → jv.onset ≤ iv.onset) ∧
      iv.onset ≤ t ∧ t ≤ iv.endTime then 1 else 0

theorem pairwise_le_getLast {l : List SzInterval}
    (hp : l.Pairwise (fun a b => a.onset < b.onset)) {m : SzInterval}
    (hm : l.getLast? = some m) : ∀ x ∈ l, x.onset ≤ m.onset := by
  induction l with
  | nil => cases hm
  | cons a t ih =>
    rcases t with _ | ⟨b, t2⟩
    · have : a = m := by
        have : some a = some m := hm
        injection this
      subst this
      intro x hx
      rcases List.mem_cons.mp hx with h | h
      · subst h; exact le_refl _
      · cases h
    · have hm2 : (b :: t2).getLast? = some m := by
        rw [← List.getLast?_cons_cons]
        exact hm
      have hp2 : (b :: t2).Pairwise (fun a b => a.onset < b.onset) :=
        (List.pairwise_cons.mp hp).2
      intro x hx
      rcases List.mem_cons.mp hx with h | h
      · subst h
        have hmmem : m ∈ b :: t2 := by
          have hne : (b :: t2) ≠ [] := by simp
          rw [List.getLast?_eq_getLast _ hne] at hm2
          have : m = (b :: t2).getLast hne := by injection hm2 with h2; exact h2.symm
          rw [this]
          exact List.getLast_mem hne
        exact le_of_lt ((List.pairwise_cons.mp hp).1 m hmmem)
      · exact ih hp2 hm2 x h

theorem pairwise_onset_inj {l : List SzInterval}
    (hp : l.Pairwise (fun a b => a.onset < b.onset)) :
    ∀ a ∈ l, ∀ b ∈ l, a.onset = b.onset → a = b := by
  induction l with
  | nil => intro a ha; cases ha
  | cons x t ih =>
    intro a ha b hb heq
    rcases List.mem_cons.mp ha with ha1 | ha1 <;> rcases List.mem_cons.mp hb with hb1 | hb1
    · subst ha1; subst hb1; rfl
    · subst ha1
      have := (List.pairwise_cons.mp hp).1 b hb1
      exact absurd heq (ne_of_lt this)
    · subst hb1
      have := (List.pairwise_cons.mp hp).1 a ha1
      exact absurd heq.symm (ne_of_lt this)
    · exact ih (List.pairwise_cons.mp hp).2 a ha1 b hb1 heq

theorem labelSample_eq_specLabel (ivs : List SzInterval)
    (hst : ivs.Pairwise (fun a b => a.onset < b.onset)) (t : ℚ) :
    labelSample ivs t = specLabel ivs t := by
  unfold labelSample asofMatch specLabel
  rcases hml : (ivs.filter (fun iv => decide (iv.onset ≤ t))).getLast? with _ | m
  · have hnil : ivs.filter (fun iv => decide (iv.onset ≤ t)) = [] :=
      List.getLast?_eq_none_iff.mp hml
    have hno : ¬ ∃ iv ∈ ivs, (∀ jv ∈ ivs, jv.onset ≤ t → jv.onset ≤ iv.onset) ∧
        iv.onset ≤ t ∧ t ≤ iv.endTime := by
      rintro ⟨iv, hiv, _, hon, _⟩
      have hmem : iv ∈ ivs.filter (fun iv => decide (iv.onset ≤ t)) :=
        List.mem_filter.mpr ⟨hiv, decide_eq_true hon⟩
      rw [hnil] at hmem
      cases hmem
    simp only [hml, if_neg hno]
  · have hmf : m ∈ ivs.filter (fun iv => decide (iv.onset ≤ t)) := by
      have hne : ivs.filter (fun iv => decide (iv.onset ≤ t)) ≠ [] := by
        intro hnil
        rw [hnil] at hml
        cases hml
      have hml2 := hml
      rw [List.getLast?_eq_getLast _ hne] at hml2
      have : m = (ivs.filter (fun iv => decide (iv.onset ≤ t))).getLast hne := by
        injection hml2 with h2; exact h2.symm
      rw [this]
      exact List.getLast_mem hne
    have hmi : m ∈ ivs := (List.mem_filter.mp hmf).1
    have hmon : m.onset ≤ t := of_decide_eq_true (List.mem_filter.mp hmf).2
    have hpf : (ivs.filter (fun iv => decide (iv.onset ≤ t))).Pairwise
        (fun a b => a.onset < b.onset) :=
      hst.sublist (List.filter_sublist ivs)
    have hmmax : ∀ jv ∈ ivs, jv.onset ≤ t → jv.onset ≤ m.onset := by
      intro jv hjv hjt
      exact pairwise_le_getLast hpf hml jv
        (List.mem_filter.mpr ⟨hjv, decide_eq_true hjt⟩)
    by_cases hcov : t ≤ m.endTime
    · simp only [hml, if_pos (And.intro hmon hcov),
        if_pos (show ∃ iv ∈ ivs, (∀ jv ∈ ivs, jv.onset ≤ t → jv.onset ≤ iv.onset) ∧
          iv.onset ≤ t ∧ t ≤ iv.endTime from ⟨m, hmi, hmmax, hmon, hcov⟩)]
    · have hnc : ¬ (m.onset ≤ t ∧ t ≤ m.endTime) := fun h => hcov h.2
      have hno : ¬ ∃ iv ∈ ivs, (∀ jv ∈ ivs, jv.onset ≤ t → jv.onset ≤ iv.onset) ∧
          iv.onset ≤ t ∧ t ≤ iv.endTime := by
        rintro ⟨iv, hiv, hivmax, hivon, hivcov⟩
        have h1 : iv.onset ≤ m.onset := hmmax iv hiv hivon
        have h2 : m.onset ≤ iv.onset := hivmax m hmi hmon
        have heq : iv = m := pairwise_onset_inj hst iv hiv m hmi (le_antisymm h1 h2)
        exact hcov (heq ▸ hivcov)
      simp only [hml, if_neg hnc, if_neg hno]

/-- Claim C5: on an annotation table with strictly increasing onsets (the
sorted-key precondition of merge_asof), labeling equals the specified rule:
default label 0, promoted to 1 exactly when the sample time t lies in
[onset, end], both ends inclusive, of the most recent interval, the one of
maximal onset among those with onset at most t. -/
theorem C5_labeling_asof (ivs : List SzInterval)
    (hst : ivs.Pairwise (fun a b => a.onset < b.onset)) (rows : List TidyRow) :
    labeling rows ivs =
      rows.map (fun r =>
        { epoch := r.epoch, vals := r.vals, seizure := specLabel ivs r.count }) := by
  unfold labeling
  apply List.map_congr_left
  intro r _
  rw [labelSample_eq_specLabel ivs hst r.count]

/-- Witness for C5: one interval [10, 15] and samples at times 12 and 20. -/
theorem C5_labeling_asof_witness :
    labeling [⟨0, [], 12⟩, ⟨1, [], 20⟩] [⟨10, 5, 15⟩] =
      ([⟨0, [], 12⟩, ⟨1, [], 20⟩] : List TidyRow).map (fun r =>
        { epoch := r.epoch, vals := r.vals, seizure := specLabel [⟨10, 5, 15⟩] r.count }) :=
  C5_labeling_asof [⟨10, 5, 15⟩] (by decide) [⟨0, [], 12⟩, ⟨1, [], 20⟩]

/-- The canonical channel name Pz. -/
def pzName : List Char := ['P', 'z']

/-- The per-sample frame inside create_epochs after dropping the condition
column: channel column names, one row of channel values per sample, and the
separate count column. -/
structure EpochsFrame where
  names : List (List Char)
  rows : List (List ℚ)
  countCol : List ℚ
deriving DecidableEq, Repr

/-- Embedding of the count restoration: count = row index / 256. -/
def addCount (f : EpochsFrame) : EpochsFrame :=
  { f with countCol := (List.range f.rows.length).map (fun i => (i : ℚ) / 256) }

/-- Row-wise mean over the channel columns, pandas mean(axis=1). -/
def rowMean (xs : List ℚ) : ℚ := xs.sum / (xs.length : ℚ)

/-- The Pz substitution the source intends: when the Pz column is missing,
append it holding, at each sample position, the mean of the other present
channels. -/
def pzFill (f : EpochsFrame) : EpochsFrame :=
  if decide (pzName ∈ f.names) then f
  else { f with names := f.names ++ [pzName],
                rows := f.rows.map (fun xs => xs ++ [rowMean xs]) }

/-- Rounding of channel values to 2 decimals; the tie behaviour is immaterial
here because the rounding step is unreachable in the source. -/
def roundq (x : ℚ) : ℚ := (round (x * 100) : ℤ) / 100

def roundFrame (f : EpochsFrame) : EpochsFrame :=
  { f with rows := f.rows.map (fun xs => xs.map roundq) }

/-- The membership test of the source reads df.epochs.columns, but the name
df is unbound inside create_epochs (the frame is named df_epochs), so the
test raises NameError before either branch can run. -/
def pzMembershipTest : Except String Bool :=
  Except.error "NameError: name df is not defined"

/-- Embedding of the frame stage of create_epochs: add the count column, then
test whether Pz is missing; the test raises and the except handler returns
the frame as it stands, with no Pz fill and no rounding applied. -/
def create_epochs_frame (f : EpochsFrame) : EpochsFrame :=
  let f1 := addCount f
  match pzMembershipTest with
  | .error _ => f1
  | .ok true => roundFrame (pzFill f1)
  | .ok false => roundFrame f1

/-- Claim C7 refuted: for a frame missing the Pz column, create_epochs never
synthesizes it; the membership test raises NameError and the handler returns
the frame with rows untouched (and unrounded), whereas the intended fill,
modelled by pzFill, would have appended Pz as the row mean of the other
channels. -/
theorem C7_no_pz_synthesis (f : EpochsFrame) (hmiss : pzName ∉ f.names) :
    pzName ∉ (create_epochs_frame f).names ∧
    (create_epochs_frame f).rows = f.rows ∧
    pzName ∈ (pzFill (addCount f)).names := by
  have hcef : create_epochs_frame f = addCount f := rfl
  refine ⟨?_, ?_, ?_⟩
  · rw [hcef]
    simpa [addCount] using hmiss
  · rw [hcef]
    rfl
  · simp [pzFill, addCount, hmiss]

/-- Witness for C7 at a one-channel frame without Pz. -/
theorem C7_no_pz_synthesis_witness :
    pzName ∉ (create_epochs_frame ⟨[['C', 'z']], [[4]], []⟩).names ∧
    (create_epochs_frame ⟨[['C', 'z']], [[4]], []⟩).rows = [[4]] ∧
    pzName ∈ (pzFill (addCount ⟨[['C', 'z']], [[4]], []⟩)).names :=
  C7_no_pz_synthesis ⟨[['C', 'z']], [[4]], []⟩ (by decide)

/-- Gap rows built by the loop of the large-file cell: row x runs from the
end of the previous seizure (0 for the first row) to the onset of seizure x. -/
def gapRows : ℚ → List SzInterval → List (ℚ × ℚ)
  | _, [] => []
  | prevEnd, s :: rest => (prevEnd, s.onset) :: gapRows s.endTime rest

/-- Embedding of the intervals_df construction: the loop rows, then one final
row whose start is seizures.iloc[-1, 1] - positional column 1 of
[onset, duration, end] is the DURATION of the last seizure - and whose end is
last_samp / sfreq - 1. The empty seizure list is out of scope: iloc[-1]
raises on it. -/
def intervals_df (seizures : List SzInterval) (lastSamp sfreq : ℚ) : List (ℚ × ℚ) :=
  gapRows 0 seizures ++
    [(((seizures.getLast?).getD ⟨0, 0, 0⟩).duration, lastSamp / sfreq - 1)]

/-- Modelled from the claim text: the same gap rows, but the final row runs
from the END of the last seizure to the end of the recording. -/
def intervalsClaimed (seizures : List SzInterval) (recordingEnd : ℚ) : List (ℚ × ℚ) :=
  gapRows 0 seizures ++ [(((seizures.getLast?).getD ⟨0, 0, 0⟩).endTime, recordingEnd)]

/-- Claim C8 refuted at one seizure (onset 100, duration 20, end 120) in a
1000 second recording at 256 Hz: the code builds the trailing interictal row
(20, 999), starting at the DURATION of the last seizure and thus overlapping
the seizure itself, while the claim describes (120, 1000), from the end of
the last seizure to the end of the recording. -/
theorem C8_last_gap_uses_duration :
    intervals_df [⟨100, 20, 120⟩] 256000 256 = [(0, 100), (20, 999)] ∧
    intervalsClaimed [⟨100, 20, 120⟩] 1000 = [(0, 100), (120, 1000)] ∧
    intervals_df [⟨100, 20, 120⟩] 256000 256 ≠
      intervalsClaimed [⟨100, 20, 120⟩] 1000 := by
  have hlast : ([⟨100, 20, 120⟩] : List SzInterval).getLast? = some ⟨100, 20, 120⟩ := rfl
  have h1 : intervals_df [⟨100, 20, 120⟩] 256000 256 = [(0, 100), (20, 999)] := by
    simp only [intervals_df, gapRows, hlast, Option.getD_some]
    norm_num
  have h2 : intervalsClaimed [⟨100, 20, 120⟩] 1000 = [(0, 100), (120, 1000)] := by
    simp only [intervalsClaimed, gapRows, hlast, Option.getD_some]
    rfl
  refine ⟨h1, h2, ?_⟩
  rw [h1, h2]
  intro h
  norm_num at h

/-- State of one recording inside preprocess: the sampling rate plus a flag
for each in-place transform. -/
structure Recording where
  sfreq : ℚ
  chTypesSet : Bool := false
  montageSet : Bool := false
  notchApplied : Bool := false
  bandpassApplied : Bool := false
  refSet : Bool := false
  resampled : Bool := false
deriving DecidableEq, Repr

/-- The notch argument np.arange(50, 101, 50): numpy is bound to the name
numpy, not np, so evaluating this expression raises NameError. -/
def np_arange : Except String (List ℚ) :=
  Except.error "NameError: name np is not defined"

/-- Embedding of preprocess: channel typing and montage succeed, building the
notch argument raises, and the except handler returns the partially processed
recording. The rest of the try block, through the resample-to-256 branch, is
modelled from the source text but is unreachable. -/
def preprocess (r : Recording) : Recording :=
  let r2 := { r with chTypesSet := true, montageSet := true }
  match np_arange with
  | .error _ => r2
  | .ok _freqs =>
    let r5 := { r2 with notchApplied := true, bandpassApplied := true, refSet := true }
    if r5.sfreq ≠ 256 then { r5 with sfreq := 256, resampled := true } else r5

/-- Claim C9 refuted: preprocess never reaches the resample step, because the
notch argument raises NameError and the handler returns early; the sampling
rate is never changed, and in particular a 512 Hz recording comes back still
at 512 Hz where the claim requires 256 Hz. -/
theorem C9_no_resample :
    (∀ r : Recording, (preprocess r).sfreq = r.sfreq ∧
      (preprocess r).resampled = r.resampled) ∧
    (preprocess { sfreq := 512 }).sfreq = 512 := by
  exact ⟨fun r => ⟨rfl, rfl⟩, rfl⟩

/-- Substring containment on character lists, Python str in str. -/
def containsSub : List Char → List Char → Bool
  | needle, [] => needle.isEmpty
  | needle, c :: rest => needle.isPrefixOf (c :: rest) || containsSub needle rest

/-- A raw recording as seen by load_raw: its annotated events and whether its
samples have been materialized. -/
structure RawRecording where
  annotations : List Annotation
  loaded : Bool := false
deriving DecidableEq, Repr

/-- Embedding of the selection aspect of load_raw: with seizure_files_only
set, when no annotation description CONTAINS the marker as a substring the
raise inside the try is caught by the own except of load_raw, which logs and
returns None; otherwise the (optionally loaded) recording is returned. -/
def load_raw (r : RawRecording) (seizure_files_only loading : Bool) : Option RawRecording :=
  if seizure_files_only &&
      !(r.annotations.any (fun a => containsSub AANVAL a.description)) then
    none
  else if loading then some { r with loaded := true }
  else some r

/-- Claim C10 counterexample: at a recording with zero annotations the
hypothesis of the claim holds vacuously, yet the selection filter does not
accept the recording (load_raw returns None), so the claim as stated fails
on the empty annotation set. -/
theorem C10_counterexample_empty :
    (∀ a ∈ ({ annotations := [] } : RawRecording).annotations,
        containsSub AANVAL a.description = true ∧ a.description ≠ AANVAL) ∧
    load_raw { annotations := [] } true true = none := by
  refine ⟨?_, rfl⟩
  intro a ha
  cases ha

/-- Claim C10 amended: for every recording with AT LEAST ONE annotation, all
of whose annotation descriptions strictly contain the marker AANVAL as a
proper substring, load_raw with seizure_files_only accepts the recording,
yet the extractor returns the empty interval sequence: the substring
selection check and the exact-equality extraction check disagree. -/
theorem C10_substring_vs_exact (r : RawRecording) (hne : r.annotations ≠ [])
    (hall : ∀ a ∈ r.annotations,
      containsSub AANVAL a.description = true ∧ a.description ≠ AANVAL) :
    load_raw r true true = some { r with loaded := true } ∧
    seizure_annotations r.annotations = [] := by
  obtain ⟨a, ha⟩ := List.exists_mem_of_ne_nil r.annotations hne
  have hany : r.annotations.any (fun a => containsSub AANVAL a.description) = true :=
    List.any_eq_true.mpr ⟨a, ha, (hall a ha).1⟩
  constructor
  · unfold load_raw
    rw [hany]
    simp
  · unfold seizure_annotations
    rw [List.filter_eq_nil_iff.mpr (fun a2 ha2 => by simp [(hall a2 ha2).2])]
    rfl

/-- Witness for the amended C10 at one annotation described AANVALLEN. -/
theorem C10_substring_vs_exact_witness :
    load_raw { annotations := [⟨0, 2, ['A', 'A', 'N', 'V', 'A', 'L', 'L', 'E', 'N']⟩] }
        true true =
      some { annotations := [⟨0, 2, ['A', 'A', 'N', 'V', 'A', 'L', 'L', 'E', 'N']⟩],
             loaded := true } ∧
    seizure_annotations [⟨0, 2, ['A', 'A', 'N', 'V', 'A', 'L', 'L', 'E', 'N']⟩] = [] :=
  C10_substring_vs_exact
    { annotations := [⟨0, 2, ['A', 'A', 'N', 'V', 'A', 'L', 'L', 'E', 'N']⟩] }
    (by decide) (by decide)
